import Mathlib

/-!
Shallow embedding of `onnx2pytorch/convert/operations.py` (`convert_operations`).

The translation engine walks the model's node list once, by position, and for
each retained node yields a triple `(op_id, op_name, op)`.  Two multi-node
rules mutate the node list in place: the MatMul+Add fusion rewrites the
MatMul node's output list and removes the following Add node, and the Sub/Div
specialization inspects the node at position `i - 1` (Python indexing, so at
`i = 0` it reads the LAST node of the list).

External collaborators (attribute decoding, the layer builders, the torch
runtime's callables) are modelled at their interface boundary: a node carries
the canonical decoded attribute mapping that `extract_attributes` returns,
layer builders are opaque constructors recording their arguments, and torch
built-ins are recorded by name, with the set of names the runtime exposes
passed in as a parameter `torchAttrs`.
-/

/-- A decoded attribute value, as produced by the external Attribute
Extractor.  Tensors are modelled as integer matrices (row list of rows). -/
inductive Attr where
  | tensor (m : List (List Int))
  | intVal (i : Int)
  | natVal (n : Nat)
  | boolVal (b : Bool)
deriving DecidableEq, Repr

/-- Errors the translation pass can raise.  `indexError` models Python's
out-of-range list indexing, `keyError` a missing dict key, `notImplemented`
the explicit `NotImplementedError` carrying the offending op type, and
`fuelError` is an artefact of the fuel-indexed loop (never reached when the
loop is started with fuel = length of the node list). -/
inductive Err where
  | notImplemented (opType : String)
  | indexError
  | keyError (k : String)
  | typeError
  | fuelError
deriving DecidableEq, Repr

/-- An initializer tensor: a name plus its data, modelled as an integer
matrix.  `numpy_helper.to_array` is the identity on this model. -/
structure TensorProto where
  name : String
  data : List (List Int)
deriving DecidableEq, Repr

/-- A graph node: operator kind, ordered input names, ordered output names,
and its decoded attribute mapping (the Attribute Extractor's output). -/
structure Node where
  op_type : String
  input : List String
  output : List String
  attrs : List (String × Attr)
deriving DecidableEq, Repr

/-- The graph: the ordered node list plus the initializer list. -/
structure Graph where
  node : List Node
  inits : List TensorProto
deriving DecidableEq, Repr

/-- The model: a graph plus the opset version list (`opset_import`). -/
structure ModelProto where
  graph : Graph
  opset_import : List Int
deriving DecidableEq, Repr

/-- `extract_attributes(node)`: the external Attribute Extractor; on this
model the node stores its decoded mapping directly. -/
def extract_attributes (n : Node) : List (String × Attr) :=
  n.attrs

/-- Python list indexing with a non-negative index: `xs[n]`, raising
`IndexError` when out of range. -/
def listGet (xs : List α) (n : Nat) : Except Err α :=
  match xs.get? n with
  | some x => Except.ok x
  | none => Except.error Err.indexError

/-- Python dict lookup `d[k]`, raising `KeyError` when absent.  The decoded
attribute mapping has distinct keys, so first-match lookup is the dict. -/
def dictGet (d : List (String × Attr)) (k : String) : Except Err Attr :=
  match d.find? (fun p => p.1 == k) with
  | some p => Except.ok p.2
  | none => Except.error (Err.keyError k)

/-- Python `k in d` on an attribute mapping. -/
def dictContains (d : List (String × Attr)) (k : String) : Bool :=
  (d.find? (fun p => p.1 == k)).isSome

/-- Python `d.update(u)` semantics on an attribute mapping: keys of `u`
override, remaining keys of `d` are kept. -/
def dictUpdate (d u : List (String × Attr)) : List (String × Attr) :=
  d.filter (fun p => (u.find? (fun q => q.1 == p.1)).isNone) ++ u

/-- `torch.from_numpy` expects an array; on this model it succeeds exactly on
tensor-valued attributes. -/
def asTensor (a : Attr) : Except Err (List (List Int)) :=
  match a with
  | Attr.tensor m => Except.ok m
  | _ => Except.error Err.typeError

/-- The Weight Index: `weights = {t.name: t for t in initializer}`.  The dict
comprehension keeps the last tensor of each name, hence the reversed find. -/
def weightLookup (ws : List TensorProto) (n : String) : Option TensorProto :=
  ws.reverse.find? (fun t => t.name == n)

/-- `[weights[name] for name in node.input if name in weights]`: the node's
resolved constant inputs, in input order. -/
def resolvedParams (ws : List TensorProto) (n : Node) : List TensorProto :=
  n.input.filterMap (weightLookup ws)

/-- `m.shape[0]` of a matrix: its row count. -/
def numRows (m : List (List Int)) : Nat :=
  m.length

/-- `m.shape[1]` of a matrix: its column count. -/
def numCols (m : List (List Int)) : Nat :=
  (m.headD []).length

/-- numpy/torch transpose of a (rectangular) matrix. -/
def transposeMat (m : List (List Int)) : List (List Int) :=
  (List.range (numCols m)).map (fun j => m.map (fun row => row.getD j 0))

/-- `onnx_model.graph.node[i - 1]` as Python evaluates it at loop index `i`:
for `i = 0` the index is `-1`, i.e. the LAST node of the current list.  The
default is never used, since the current node guarantees `i < length`. -/
def prevNode (nodes : List Node) (i : Nat) (cur : Node) : Node :=
  if i = 0 then nodes.getLastD cur else nodes.getD (i - 1) cur

/-- The executable unit the engine emits for a node.  External builders
(`convert_layer`, `convert_linear_layer`, the normalization builders) and
torch built-ins are opaque: the constructor records exactly the arguments the
source passes them.  `linear` is `nn.Linear(inF, outF, bias=False)` with its
weight data bound, and optionally a bias bound by the MatMul+Add fusion. -/
inductive Op where
  | convertLayer (n : Node) (kind : String) (ps : Option (List TensorProto))
  | relu
  | leakyRelu (attrs : List (String × Attr))
  | elu (attrs : List (String × Attr))
  | sigmoid
  | flatten (attrs : List (String × Attr))
  | linearLayer (n : Node) (ps : List TensorProto) (featureDim : Int)
  | batchNorm (n : Node) (ps : List TensorProto)
  | instanceNorm (n : Node) (ps : List TensorProto)
  | concatCat (attrs : List (String × Attr))
  | constantVal (m : List (List Int))
  | reshape (shape : Option (List (List Int)))
  | shapeOp
  | expand
  | gather (attrs : List (String × Attr))
  | squeeze (opset : Int) (attrs : List (String × Attr))
  | unsqueeze (opset : Int) (attrs : List (String × Attr))
  | constantOfShape (attrs : List (String × Attr))
  | rangeOp
  | sliceOp (attrs : List (String × Attr))
  | cast (attrs : List (String × Attr))
  | torchFn (name : String)
  | divConst (y : List (List Int))
  | linear (inF outF : Nat) (weight : List (List Int)) (bias : Option (List (List Int)))
  | subConst (y : List (List Int))
  | softmax (attrs : List (String × Attr))
  | permuteOp (attrs : List (String × Attr))
  | split (kwargs : List (String × Attr))
  | meanOp (kwargs : List (String × Attr))
  | addOp (featureDim : Int)
  | globalAveragePool
  | identityOp
  | resize (attrs : List (String × Attr))
  | upsample (attrs : List (String × Attr))
  | oneHot (attrs : List (String × Attr))
  | pad (attrs : List (String × Attr))
  | opWrapper (name : String)
deriving DecidableEq, Repr

/-- `op.bias = nn.Parameter(bias)` in the fusion branch: attach a bias to the
built affine unit. -/
def Op.withBias (op : Op) (b : List (List Int)) : Op :=
  match op with
  | Op.linear a c w _ => Op.linear a c w (some b)
  | o => o

/-- One emitted translation triple `(operator_id, operator_name, unit)`. -/
structure Triple where
  op_id : String
  op_name : String
  op : Op
deriving DecidableEq, Repr

/-- The outcome of translating one node: the built unit, the current node as
it stands after any in-place rewrite (Python mutates the node object, and the
naming at the end of the loop body reads the mutated object), the node list
after any in-place removal, and the diagnostics printed. -/
structure StepOut where
  op : Op
  newNode : Node
  newNodes : List Node
  diags : List String
deriving DecidableEq, Repr

/-- Lift a branch that neither rewrites the node nor the node list. -/
def mkPlain (nodes : List Node) (node : Node) (r : Except Err (Op × List String)) :
    Except Err StepOut :=
  r.map (fun p => ⟨p.1, node, nodes, p.2⟩)

/-- The `Constant` branch: wrap the decoded literal value. -/
def constantArm (node : Node) : Except Err (Op × List String) :=
  match dictGet (extract_attributes node) "constant" with
  | Except.error e => Except.error e
  | Except.ok a =>
    match asTensor a with
    | Except.error e => Except.error e
    | Except.ok v => Except.ok (Op.constantVal v, [])

/-- The `Reshape` branch: resolve the second input against the initializer
list eagerly, leaving the target shape unresolved when absent. -/
def reshapeArm (ws : List TensorProto) (node : Node) : Except Err (Op × List String) :=
  match listGet node.input 1 with
  | Except.error e => Except.error e
  | Except.ok i1 =>
    Except.ok (Op.reshape (((ws.filter (fun t => t.name == i1)).head?).map TensorProto.data), [])

/-- The `Div` branch: when the node at `i - 1` is a Constant node, close over
its decoded literal as the divisor; otherwise the generic built-in. -/
def divArm (nodes : List Node) (i : Nat) (node : Node) : Except Err (Op × List String) :=
  if (prevNode nodes i node).op_type = "Constant" then
    match dictGet (extract_attributes (prevNode nodes i node)) "constant" with
    | Except.error e => Except.error e
    | Except.ok a =>
      match asTensor a with
      | Except.error e => Except.error e
      | Except.ok v => Except.ok (Op.divConst v, [])
  else
    Except.ok (Op.torchFn "true_divide", [])

/-- The `Sub` branch: same shape as the `Div` branch. -/
def subArm (nodes : List Node) (i : Nat) (node : Node) : Except Err (Op × List String) :=
  if (prevNode nodes i node).op_type = "Constant" then
    match dictGet (extract_attributes (prevNode nodes i node)) "constant" with
    | Except.error e => Except.error e
    | Except.ok a =>
      match asTensor a with
      | Except.error e => Except.error e
      | Except.ok v => Except.ok (Op.subConst v, [])
  else
    Except.ok (Op.torchFn "sub", [])

/-- The `Split` branch: when no explicit split-size attribute is present, the
number of splits becomes the number of node outputs. -/
def splitArm (node : Node) : Op :=
  let kwargs := extract_attributes node
  if dictContains kwargs "split_size_or_sections" then
    Op.split kwargs
  else
    Op.split (kwargs ++ [("number_of_splits", Attr.natVal node.output.length)])

/-- Python's `str.lower()`: lowercase every character.  (Defined by
structural recursion over the character list so concrete runs reduce.) -/
def strLower (s : String) : String :=
  String.mk (s.data.map Char.toLower)

/-- The fallback: `getattr(torch, op_type.lower(), None)`; found names are
used directly with one informational diagnostic, otherwise the pass raises
`NotImplementedError` carrying the op type. -/
def autoOp (torchAttrs : List String) (opType : String) : Except Err (Op × List String) :=
  if torchAttrs.contains (strLower opType) then
    Except.ok (Op.torchFn (strLower opType),
      ["Automatic inference of operator: " ++ strLower opType])
  else
    Except.error (Err.notImplemented opType)

/-- Lines 109-116: build the affine unit for a MatMul node with a resolved
constant input `w` (= `params[0]`).  Orientation: when the FIRST input names
an initializer the weight is bound unmodified with `Linear(cols, rows)`;
otherwise `Linear(rows, cols)` binds the transpose. -/
def matmulBase (ws : List TensorProto) (node : Node) (w : TensorProto) : Except Err Op :=
  match listGet node.input 0 with
  | Except.error e => Except.error e
  | Except.ok i0 =>
    if (weightLookup ws i0).isSome then
      Except.ok (Op.linear (numCols w.data) (numRows w.data) w.data none)
    else
      Except.ok (Op.linear (numRows w.data) (numCols w.data) (transposeMat w.data) none)

/-- The `MatMul` branch, lines 108-132.  With a resolved constant input the
affine unit is built and the node at `i + 1` is inspected unconditionally
(IndexError past the end); when that node is an Add with a resolved constant
input, its constant becomes the bias, the MatMul node's output list is
rewritten to the Add's (pop the last name, extend with the Add's names), and
the Add node is removed from the list.  Without any resolved constant input
the generic `torch.matmul` is used. -/
def matmulStep (ws : List TensorProto) (nodes : List Node) (i : Nat) (node : Node)
    (params : List TensorProto) : Except Err StepOut :=
  match params with
  | [] => mkPlain nodes node (pure (Op.torchFn "matmul", []))
  | w :: _ =>
    match matmulBase ws node w with
    | Except.error e => Except.error e
    | Except.ok base =>
      match listGet nodes (i + 1) with
      | Except.error e => Except.error e
      | Except.ok nxt =>
        match resolvedParams ws nxt with
        | b :: _ =>
          if nxt.op_type = "Add" then
            let newNode : Node := { node with output := node.output.dropLast ++ nxt.output }
            Except.ok ⟨Op.withBias base b.data, newNode, (nodes.set i newNode).eraseIdx (i + 1), []⟩
          else
            Except.ok ⟨base, node, nodes, []⟩
        | [] =>
          Except.ok ⟨base, node, nodes, []⟩

/-- The dispatch chain for one node, in source order. -/
def stepNode (torchAttrs : List String) (ws : List TensorProto) (os : Int) (bd : Int)
    (nodes : List Node) (i : Nat) (node : Node) : Except Err StepOut :=
  if node.op_type = "Conv" then
    mkPlain nodes node (pure (Op.convertLayer node "Conv" (some (resolvedParams ws node)), []))
  else if node.op_type = "Relu" then
    mkPlain nodes node (pure (Op.relu, []))
  else if node.op_type = "LeakyRelu" then
    mkPlain nodes node (pure (Op.leakyRelu (extract_attributes node), []))
  else if node.op_type = "Elu" then
    mkPlain nodes node (pure (Op.elu (extract_attributes node), []))
  else if node.op_type = "Sigmoid" then
    mkPlain nodes node (pure (Op.sigmoid, []))
  else if node.op_type = "MaxPool" then
    mkPlain nodes node (pure (Op.convertLayer node "MaxPool" none, []))
  else if node.op_type = "AveragePool" then
    mkPlain nodes node (pure (Op.convertLayer node "AvgPool" none, []))
  else if node.op_type = "Flatten" then
    mkPlain nodes node (pure (Op.flatten (extract_attributes node), []))
  else if node.op_type = "Gemm" then
    mkPlain nodes node (pure (Op.linearLayer node (resolvedParams ws node) (bd + 1), []))
  else if node.op_type = "BatchNormalization" then
    mkPlain nodes node (pure (Op.batchNorm node (resolvedParams ws node), []))
  else if node.op_type = "InstanceNormalization" then
    mkPlain nodes node (pure (Op.instanceNorm node (resolvedParams ws node), []))
  else if node.op_type = "Concat" then
    mkPlain nodes node (pure (Op.concatCat (extract_attributes node), []))
  else if node.op_type = "Constant" then
    mkPlain nodes node (constantArm node)
  else if node.op_type = "Reshape" then
    mkPlain nodes node (reshapeArm ws node)
  else if node.op_type = "Shape" then
    mkPlain nodes node (pure (Op.shapeOp, []))
  else if node.op_type = "Expand" then
    mkPlain nodes node (pure (Op.expand, []))
  else if node.op_type = "Gather" then
    mkPlain nodes node (pure (Op.gather (extract_attributes node), []))
  else if node.op_type = "Squeeze" then
    mkPlain nodes node (pure (Op.squeeze os (extract_attributes node), []))
  else if node.op_type = "Unsqueeze" then
    mkPlain nodes node (pure (Op.unsqueeze os (extract_attributes node), []))
  else if node.op_type = "ConstantOfShape" then
    mkPlain nodes node (pure (Op.constantOfShape (extract_attributes node), []))
  else if node.op_type = "Range" then
    mkPlain nodes node (pure (Op.rangeOp, []))
  else if node.op_type = "Slice" then
    mkPlain nodes node (pure (Op.sliceOp (extract_attributes node), []))
  else if node.op_type = "Cast" then
    mkPlain nodes node (pure (Op.cast (extract_attributes node), []))
  else if node.op_type = "Where" then
    mkPlain nodes node (pure (Op.torchFn "where", []))
  else if node.op_type = "Equal" then
    mkPlain nodes node (pure (Op.torchFn "eq", []))
  else if node.op_type = "Mul" then
    mkPlain nodes node (pure (Op.torchFn "mul", []))
  else if node.op_type = "Div" then
    mkPlain nodes node (divArm nodes i node)
  else if node.op_type = "MatMul" then
    matmulStep ws nodes i node (resolvedParams ws node)
  else if node.op_type = "Sub" then
    mkPlain nodes node (subArm nodes i node)
  else if node.op_type = "Pow" then
    mkPlain nodes node (pure (Op.torchFn "pow", []))
  else if node.op_type = "Sqrt" then
    mkPlain nodes node (pure (Op.torchFn "sqrt", []))
  else if node.op_type = "Softmax" then
    mkPlain nodes node (pure (Op.softmax (extract_attributes node), []))
  else if node.op_type = "Transpose" then
    mkPlain nodes node (pure (Op.permuteOp (extract_attributes node), []))
  else if node.op_type = "Split" then
    mkPlain nodes node (pure (splitArm node, []))
  else if node.op_type = "ReduceMean" then
    mkPlain nodes node
      (pure (Op.meanOp (dictUpdate [("keepdim", Attr.boolVal true)] (extract_attributes node)), []))
  else if node.op_type = "Add" then
    mkPlain nodes node (pure (Op.addOp (bd + 1), []))
  else if node.op_type = "GlobalAveragePool" then
    mkPlain nodes node (pure (Op.globalAveragePool, []))
  else if node.op_type = "ConvTranspose" then
    mkPlain nodes node (pure (Op.convertLayer node "ConvTranspose" (some (resolvedParams ws node)), []))
  else if node.op_type = "Identity" then
    mkPlain nodes node (pure (Op.identityOp, []))
  else if node.op_type = "Resize" then
    mkPlain nodes node (pure (Op.resize (extract_attributes node), []))
  else if node.op_type = "Upsample" then
    mkPlain nodes node (pure (Op.upsample (extract_attributes node), []))
  else if node.op_type = "OneHot" then
    mkPlain nodes node (pure (Op.oneHot (extract_attributes node), []))
  else if node.op_type = "Pad" then
    mkPlain nodes node (pure (Op.pad (extract_attributes node), []))
  else if node.op_type = "Clip" then
    mkPlain nodes node (pure (Op.opWrapper "clamp", []))
  else if node.op_type = "Tanh" then
    mkPlain nodes node (pure (Op.opWrapper "tanh", []))
  else if node.op_type = "Erf" then
    mkPlain nodes node (pure (Op.opWrapper "erf", []))
  else if node.op_type = "Log" then
    mkPlain nodes node (pure (Op.opWrapper "log", []))
  else if node.op_type = "Exp" then
    mkPlain nodes node (pure (Op.opWrapper "exp", []))
  else if node.op_type = "Reciprocal" then
    mkPlain nodes node (pure (Op.opWrapper "reciprocal", []))
  else if node.op_type = "And" then
    mkPlain nodes node (pure (Op.opWrapper "logical_and", []))
  else if node.op_type = "Or" then
    mkPlain nodes node (pure (Op.opWrapper "logical_or", []))
  else if node.op_type = "Not" then
    mkPlain nodes node (pure (Op.opWrapper "logical_not", []))
  else
    mkPlain nodes node (autoOp torchAttrs node.op_type)

/-- The loop over the (mutating) node list, by explicit position, exactly as
CPython's list iterator behaves: stop as soon as `i` reaches the CURRENT
length; the naming at the end of the body reads the possibly rewritten node
object (`node.output[0]`, raising IndexError when empty).  The fuel only
bounds recursion; started with the initial list length it never runs out,
since each iteration advances `i` by one and never lengthens the list. -/
def convertLoop (torchAttrs : List String) (ws : List TensorProto) (os : Int) (bd : Int) :
    Nat → List Node → Nat → Except Err (List Triple × List String)
  | 0, nodes, i =>
    if i < nodes.length then Except.error Err.fuelError else Except.ok ([], [])
  | fuel + 1, nodes, i =>
    if h : i < nodes.length then
      match stepNode torchAttrs ws os bd nodes i (nodes.get ⟨i, h⟩) with
      | Except.error e => Except.error e
      | Except.ok out =>
        match listGet out.newNode.output 0 with
        | Except.error e => Except.error e
        | Except.ok oid =>
          match convertLoop torchAttrs ws os bd fuel out.newNodes (i + 1) with
          | Except.error e => Except.error e
          | Except.ok rest =>
            Except.ok
              (⟨oid, out.newNode.op_type ++ "_" ++ oid, out.op⟩ :: rest.1,
               out.diags ++ rest.2)
    else
      Except.ok ([], [])

/-- `convert_operations(onnx_model, batch_dim)`: run the pass over the whole
model, collecting the emitted triples and the printed diagnostics. -/
def convert_operations (torchAttrs : List String) (m : ModelProto) (batch_dim : Int) :
    Except Err (List Triple × List String) :=
  match listGet m.opset_import 0 with
  | Except.error e => Except.error e
  | Except.ok os =>
    convertLoop torchAttrs m.graph.inits os batch_dim m.graph.node.length m.graph.node 0

/-- Structural decidable equality for `Except` results, so concrete runs of
the engine can be checked by `decide`. -/
instance {e a : Type _} [DecidableEq e] [DecidableEq a] : DecidableEq (Except e a) :=
  fun x y =>
    match x, y with
    | Except.error u, Except.error v =>
      match decEq u v with
      | isTrue h => isTrue (by rw [h])
      | isFalse h => isFalse (fun hc => h (by cases hc; rfl))
    | Except.ok u, Except.ok v =>
      match decEq u v with
      | isTrue h => isTrue (by rw [h])
      | isFalse h => isFalse (fun hc => h (by cases hc; rfl))
    | Except.error _, Except.ok _ => isFalse (fun hc => Except.noConfusion hc)
    | Except.ok _, Except.error _ => isFalse (fun hc => Except.noConfusion hc)

/-- The first output name of a node (the emitted triple's `operator_id`),
with the empty string standing for a node with no outputs (the engine raises
IndexError on such a node before emitting anything). -/
def firstOut (n : Node) : String :=
  n.output.headD ""

/-- The operator kinds with an explicit arm in the dispatch chain, in source
order. -/
def explicitKinds : List String :=
  ["Conv", "Relu", "LeakyRelu", "Elu", "Sigmoid", "MaxPool", "AveragePool",
   "Flatten", "Gemm", "BatchNormalization", "InstanceNormalization", "Concat",
   "Constant", "Reshape", "Shape", "Expand", "Gather", "Squeeze", "Unsqueeze",
   "ConstantOfShape", "Range", "Slice", "Cast", "Where", "Equal", "Mul",
   "Div", "MatMul", "Sub", "Pow", "Sqrt", "Softmax", "Transpose", "Split",
   "ReduceMean", "Add", "GlobalAveragePool", "ConvTranspose", "Identity",
   "Resize", "Upsample", "OneHot", "Pad", "Clip", "Tanh", "Erf", "Log",
   "Exp", "Reciprocal", "And", "Or", "Not"]

/-! ## Structural lemmas about the engine -/

theorem listGet_ok {α : Type _} {xs : List α} {n : Nat} {a : α} :
    listGet xs n = Except.ok a ↔ xs.get? n = some a := by
  unfold listGet
  cases h : xs.get? n <;> simp

theorem mkPlain_ok {nodes : List Node} {node : Node} {r : Except Err (Op × List String)}
    {out : StepOut} (h : mkPlain nodes node r = Except.ok out) :
    out.newNode = node ∧ out.newNodes = nodes := by
  cases r with
  | error e => simp [mkPlain, Except.map] at h
  | ok p =>
    simp only [mkPlain, Except.map, Except.ok.injEq] at h
    rw [← h]
    exact ⟨rfl, rfl⟩

theorem matmulStep_ok_shape {ws : List TensorProto} {nodes : List Node} {i : Nat}
    {node : Node} {params : List TensorProto} {out : StepOut}
    (h : matmulStep ws nodes i node params = Except.ok out) :
    (out.newNode = node ∧ out.newNodes = nodes) ∨
      (∃ nxt, nodes.get? (i + 1) = some nxt ∧
        out.newNode = { node with output := node.output.dropLast ++ nxt.output } ∧
        out.newNodes = (nodes.set i out.newNode).eraseIdx (i + 1)) := by
  match params with
  | [] => exact Or.inl (mkPlain_ok h)
  | w :: rest =>
    simp only [matmulStep] at h
    split at h
    · exact absurd h (by simp)
    split at h
    · exact absurd h (by simp)
    rename_i base hbase nxt hnxt
    split at h
    · split at h
      · rename_i b bs hb hadd
        rw [Except.ok.injEq] at h
        refine Or.inr ⟨nxt, listGet_ok.mp hnxt, ?_, ?_⟩
        · rw [← h]
        · rw [← h]
      · rw [Except.ok.injEq] at h
        rw [← h]
        exact Or.inl ⟨rfl, rfl⟩
    · rw [Except.ok.injEq] at h
      rw [← h]
      exact Or.inl ⟨rfl, rfl⟩

theorem stepNode_ok_shape {T : List String} {ws : List TensorProto} {os bd : Int}
    {nodes : List Node} {i : Nat} {node : Node} {out : StepOut}
    (h : stepNode T ws os bd nodes i node = Except.ok out) :
    (out.newNode = node ∧ out.newNodes = nodes) ∨
      (∃ nxt, nodes.get? (i + 1) = some nxt ∧
        out.newNode = { node with output := node.output.dropLast ++ nxt.output } ∧
        out.newNodes = (nodes.set i out.newNode).eraseIdx (i + 1)) := by
  unfold stepNode at h
  by_cases hc0 : node.op_type = "Conv"
  · rw [if_pos hc0] at h; exact Or.inl (mkPlain_ok h)
  rw [if_neg hc0] at h
  by_cases hc1 : node.op_type = "Relu"
  · rw [if_pos hc1] at h; exact Or.inl (mkPlain_ok h)
  rw [if_neg hc1] at h
  by_cases hc2 : node.op_type = "LeakyRelu"
  · rw [if_pos hc2] at h; exact Or.inl (mkPlain_ok h)
  rw [if_neg hc2] at h
  by_cases hc3 : node.op_type = "Elu"
  · rw [if_pos hc3] at h; exact Or.inl (mkPlain_ok h)
  rw [if_neg hc3] at h
  by_cases hc4 : node.op_type = "Sigmoid"
  · rw [if_pos hc4] at h; exact Or.inl (mkPlain_ok h)
  rw [if_neg hc4] at h
  by_cases hc5 : node.op_type = "MaxPool"
  · rw [if_pos hc5] at h; exact Or.inl (mkPlain_ok h)
  rw [if_neg hc5] at h
  by_cases hc6 : node.op_type = "AveragePool"
  · rw [if_pos hc6] at h; exact Or.inl (mkPlain_ok h)
  rw [if_neg hc6] at h
  by_cases hc7 : node.op_type = "Flatten"
  · rw [if_pos hc7] at h; exact Or.inl (mkPlain_ok h)
  rw [if_neg hc7] at h
  by_cases hc8 : node.op_type = "Gemm"
  · rw [if_pos hc8] at h; exact Or.inl (mkPlain_ok h)
  rw [if_neg hc8] at h
  by_cases hc9 : node.op_type = "BatchNormalization"
  · rw [if_pos hc9] at h; exact Or.inl (mkPlain_ok h)
  rw [if_neg hc9] at h
  by_cases hc10 : node.op_type = "InstanceNormalization"
  · rw [if_pos hc10] at h; exact Or.inl (mkPlain_ok h)
  rw [if_neg hc10] at h
  by_cases hc11 : node.op_type = "Concat"
  · rw [if_pos hc11] at h; exact Or.inl (mkPlain_ok h)
  rw [if_neg hc11] at h
  by_cases hc12 : node.op_type = "Constant"
  · rw [if_pos hc12] at h; exact Or.inl (mkPlain_ok h)
  rw [if_neg hc12] at h
  by_cases hc13 : node.op_type = "Reshape"
  · rw [if_pos hc13] at h; exact Or.inl (mkPlain_ok h)
  rw [if_neg hc13] at h
  by_cases hc14 : node.op_type = "Shape"
  · rw [if_pos hc14] at h; exact Or.inl (mkPlain_ok h)
  rw [if_neg hc14] at h
  by_cases hc15 : node.op_type = "Expand"
  · rw [if_pos hc15] at h; exact Or.inl (mkPlain_ok h)
  rw [if_neg hc15] at h
  by_cases hc16 : node.op_type = "Gather"
  · rw [if_pos hc16] at h; exact Or.inl (mkPlain_ok h)
  rw [if_neg hc16] at h
  by_cases hc17 : node.op_type = "Squeeze"
  · rw [if_pos hc17] at h; exact Or.inl (mkPlain_ok h)
  rw [if_neg hc17] at h
  by_cases hc18 : node.op_type = "Unsqueeze"
  · rw [if_pos hc18] at h; exact Or.inl (mkPlain_ok h)
  rw [if_neg hc18] at h
  by_cases hc19 : node.op_type = "ConstantOfShape"
  · rw [if_pos hc19] at h; exact Or.inl (mkPlain_ok h)
  rw [if_neg hc19] at h
  by_cases hc20 : node.op_type = "Range"
  · rw [if_pos hc20] at h; exact Or.inl (mkPlain_ok h)
  rw [if_neg hc20] at h
  by_cases hc21 : node.op_type = "Slice"
  · rw [if_pos hc21] at h; exact Or.inl (mkPlain_ok h)
  rw [if_neg hc21] at h
  by_cases hc22 : node.op_type = "Cast"
  · rw [if_pos hc22] at h; exact Or.inl (mkPlain_ok h)
  rw [if_neg hc22] at h
  by_cases hc23 : node.op_type = "Where"
  · rw [if_pos hc23] at h; exact Or.inl (mkPlain_ok h)
  rw [if_neg hc23] at h
  by_cases hc24 : node.op_type = "Equal"
  · rw [if_pos hc24] at h; exact Or.inl (mkPlain_ok h)
  rw [if_neg hc24] at h
  by_cases hc25 : node.op_type = "Mul"
  · rw [if_pos hc25] at h; exact Or.inl (mkPlain_ok h)
  rw [if_neg hc25] at h
  by_cases hc26 : node.op_type = "Div"
  · rw [if_pos hc26] at h; exact Or.inl (mkPlain_ok h)
  rw [if_neg hc26] at h
  by_cases hc27 : node.op_type = "MatMul"
  · rw [if_pos hc27] at h; exact matmulStep_ok_shape h
  rw [if_neg hc27] at h
  by_cases hc28 : node.op_type = "Sub"
  · rw [if_pos hc28] at h; exact Or.inl (mkPlain_ok h)
  rw [if_neg hc28] at h
  by_cases hc29 : node.op_type = "Pow"
  · rw [if_pos hc29] at h; exact Or.inl (mkPlain_ok h)
  rw [if_neg hc29] at h
  by_cases hc30 : node.op_type = "Sqrt"
  · rw [if_pos hc30] at h; exact Or.inl (mkPlain_ok h)
  rw [if_neg hc30] at h
  by_cases hc31 : node.op_type = "Softmax"
  · rw [if_pos hc31] at h; exact Or.inl (mkPlain_ok h)
  rw [if_neg hc31] at h
  by_cases hc32 : node.op_type = "Transpose"
  · rw [if_pos hc32] at h; exact Or.inl (mkPlain_ok h)
  rw [if_neg hc32] at h
  by_cases hc33 : node.op_type = "Split"
  · rw [if_pos hc33] at h; exact Or.inl (mkPlain_ok h)
  rw [if_neg hc33] at h
  by_cases hc34 : node.op_type = "ReduceMean"
  · rw [if_pos hc34] at h; exact Or.inl (mkPlain_ok h)
  rw [if_neg hc34] at h
  by_cases hc35 : node.op_type = "Add"
  · rw [if_pos hc35] at h; exact Or.inl (mkPlain_ok h)
  rw [if_neg hc35] at h
  by_cases hc36 : node.op_type = "GlobalAveragePool"
  · rw [if_pos hc36] at h; exact Or.inl (mkPlain_ok h)
  rw [if_neg hc36] at h
  by_cases hc37 : node.op_type = "ConvTranspose"
  · rw [if_pos hc37] at h; exact Or.inl (mkPlain_ok h)
  rw [if_neg hc37] at h
  by_cases hc38 : node.op_type = "Identity"
  · rw [if_pos hc38] at h; exact Or.inl (mkPlain_ok h)
  rw [if_neg hc38] at h
  by_cases hc39 : node.op_type = "Resize"
  · rw [if_pos hc39] at h; exact Or.inl (mkPlain_ok h)
  rw [if_neg hc39] at h
  by_cases hc40 : node.op_type = "Upsample"
  · rw [if_pos hc40] at h; exact Or.inl (mkPlain_ok h)
  rw [if_neg hc40] at h
  by_cases hc41 : node.op_type = "OneHot"
  · rw [if_pos hc41] at h; exact Or.inl (mkPlain_ok h)
  rw [if_neg hc41] at h
  by_cases hc42 : node.op_type = "Pad"
  · rw [if_pos hc42] at h; exact Or.inl (mkPlain_ok h)
  rw [if_neg hc42] at h
  by_cases hc43 : node.op_type = "Clip"
  · rw [if_pos hc43] at h; exact Or.inl (mkPlain_ok h)
  rw [if_neg hc43] at h
  by_cases hc44 : node.op_type = "Tanh"
  · rw [if_pos hc44] at h; exact Or.inl (mkPlain_ok h)
  rw [if_neg hc44] at h
  by_cases hc45 : node.op_type = "Erf"
  · rw [if_pos hc45] at h; exact Or.inl (mkPlain_ok h)
  rw [if_neg hc45] at h
  by_cases hc46 : node.op_type = "Log"
  · rw [if_pos hc46] at h; exact Or.inl (mkPlain_ok h)
  rw [if_neg hc46] at h
  by_cases hc47 : node.op_type = "Exp"
  · rw [if_pos hc47] at h; exact Or.inl (mkPlain_ok h)
  rw [if_neg hc47] at h
  by_cases hc48 : node.op_type = "Reciprocal"
  · rw [if_pos hc48] at h; exact Or.inl (mkPlain_ok h)
  rw [if_neg hc48] at h
  by_cases hc49 : node.op_type = "And"
  · rw [if_pos hc49] at h; exact Or.inl (mkPlain_ok h)
  rw [if_neg hc49] at h
  by_cases hc50 : node.op_type = "Or"
  · rw [if_pos hc50] at h; exact Or.inl (mkPlain_ok h)
  rw [if_neg hc50] at h
  by_cases hc51 : node.op_type = "Not"
  · rw [if_pos hc51] at h; exact Or.inl (mkPlain_ok h)
  rw [if_neg hc51] at h
  exact Or.inl (mkPlain_ok h)

theorem dropAt {α : Type _} : ∀ (l : List α) (i : Nat) (h : i < l.length),
    l.drop i = l.get ⟨i, h⟩ :: l.drop (i + 1)
  | _ :: _, 0, _ => rfl
  | _ :: t, i + 1, h => dropAt t i (Nat.lt_of_succ_lt_succ h)

theorem dropSetErase {α : Type _} : ∀ (i : Nat) (l : List α) (x : α),
    ((l.set i x).eraseIdx (i + 1)).drop (i + 1) = l.drop (i + 2)
  | 0, [], _ => rfl
  | 0, _ :: t, _ => by cases t <;> rfl
  | _ + 1, [], _ => rfl
  | i + 1, _ :: t, x => dropSetErase i t x

theorem firstOut_eq_of_get0 {n : Node} {o : String} (h : n.output.get? 0 = some o) :
    firstOut n = o := by
  cases hn : n.output with
  | nil => rw [hn] at h; cases h
  | cons a t =>
    rw [hn] at h
    simp only [List.get?] at h
    cases h
    simp [firstOut, hn]

theorem headD_dropLast_append {a b : List String} {o : String}
    (h : (a.dropLast ++ b).get? 0 = some o) :
    o = a.headD "" ∨ o = b.headD "" := by
  match a with
  | [] =>
    right
    cases b with
    | nil => cases h
    | cons x t => simp only [List.dropLast, List.nil_append, List.get?] at h; cases h; rfl
  | [x] =>
    right
    cases b with
    | nil => cases h
    | cons y t => simp only [List.dropLast, List.nil_append, List.get?] at h; cases h; rfl
  | x :: y :: t =>
    left
    simp only [List.dropLast, List.cons_append, List.get?] at h
    cases h
    rfl

/-- Loop invariant for the operator-id uniqueness claim: when the first
output names of the not-yet-visited nodes are distinct, a successful run
emits triples with pairwise distinct `op_id`s, each of which is the first
output name of one of the not-yet-visited nodes. -/
theorem convertLoop_nodup (T : List String) (ws : List TensorProto) (os bd : Int) :
    ∀ (fuel : Nat) (nodes : List Node) (i : Nat) (ts : List Triple) (ds : List String),
      convertLoop T ws os bd fuel nodes i = Except.ok (ts, ds) →
      ((nodes.drop i).map firstOut).Nodup →
      (ts.map Triple.op_id).Nodup ∧ ∀ t ∈ ts, t.op_id ∈ (nodes.drop i).map firstOut := by
  intro fuel
  induction fuel with
  | zero =>
    intro nodes i ts ds h _
    simp only [convertLoop] at h
    split at h
    · exact Except.noConfusion h
    · rw [Except.ok.injEq] at h
      obtain ⟨rfl, rfl⟩ := Prod.mk.inj h
      simp
  | succ f ih =>
    intro nodes i ts ds h hnd
    simp only [convertLoop] at h
    split at h
    case isFalse hlen =>
      rw [Except.ok.injEq] at h
      obtain ⟨rfl, rfl⟩ := Prod.mk.inj h
      simp
    case isTrue hlen =>
      split at h
      · exact Except.noConfusion h
      rename_i out hstep
      split at h
      · exact Except.noConfusion h
      rename_i oid hoid
      split at h
      · exact Except.noConfusion h
      rename_i rest hrest
      rcases rest with ⟨ts', ds'⟩
      rw [Except.ok.injEq] at h
      obtain ⟨rfl, rfl⟩ := Prod.mk.inj h
      have hoid' : out.newNode.output.get? 0 = some oid := listGet_ok.mp hoid
      have hdrop : nodes.drop i = nodes.get ⟨i, hlen⟩ :: nodes.drop (i + 1) :=
        dropAt nodes i hlen
      rcases stepNode_ok_shape hstep with ⟨hnn, hns⟩ | ⟨nxt, hget, hnew, hnodes⟩
      · -- no fusion: the node list is unchanged and the id is this node's
        have hfo : firstOut (nodes.get ⟨i, hlen⟩) = oid := by
          rw [← hnn]; exact firstOut_eq_of_get0 hoid'
        rw [hdrop, List.map_cons, List.nodup_cons] at hnd
        have hih := ih nodes (i + 1) ts' ds' (by rw [← hns]; exact hrest) hnd.2
        constructor
        · rw [List.map_cons, List.nodup_cons]
          refine ⟨?_, hih.1⟩
          intro hmem
          obtain ⟨t, ht, hteq⟩ := List.mem_map.mp hmem
          have hmem2 := hih.2 t ht
          rw [hteq] at hmem2
          rw [hfo] at hnd
          exact hnd.1 hmem2
        · intro t ht
          rw [hdrop, List.map_cons]
          rcases List.mem_cons.mp ht with rfl | ht'
          · rw [List.mem_cons]; left; exact hfo.symm
          · rw [List.mem_cons]; right; exact hih.2 t ht'
      · -- fusion: the Add node at i+1 is removed, the id is the node's or the Add's
        obtain ⟨hlt, hgeteq⟩ := List.get?_eq_some.mp hget
        have hdrop2 : nodes.drop (i + 1) = nxt :: nodes.drop (i + 2) := by
          rw [dropAt nodes (i + 1) hlt, hgeteq]
        have hrw : out.newNodes.drop (i + 1) = nodes.drop (i + 2) := by
          rw [hnodes]; exact dropSetErase i nodes out.newNode
        have hcase : oid = firstOut (nodes.get ⟨i, hlen⟩) ∨ oid = firstOut nxt := by
          have houtp : out.newNode.output
              = (nodes.get ⟨i, hlen⟩).output.dropLast ++ nxt.output := by rw [hnew]
          rw [houtp] at hoid'
          exact headD_dropLast_append hoid'
        rw [hdrop, hdrop2, List.map_cons, List.map_cons, List.nodup_cons,
          List.nodup_cons, List.mem_cons] at hnd
        have hnd1 := hnd.1
        have hnd2 := hnd.2.1
        have hnd3 := hnd.2.2
        have hih := ih out.newNodes (i + 1) ts' ds' hrest (by rw [hrw]; exact hnd3)
        have hoid_not : oid ∉ (nodes.drop (i + 2)).map firstOut := by
          rcases hcase with hq | hq
          · rw [hq]; intro hc; exact hnd1 (Or.inr hc)
          · rw [hq]; exact hnd2
        constructor
        · rw [List.map_cons, List.nodup_cons]
          refine ⟨?_, hih.1⟩
          intro hmem
          obtain ⟨t, ht, hteq⟩ := List.mem_map.mp hmem
          have hmem2 := hih.2 t ht
          rw [hrw, hteq] at hmem2
          exact hoid_not hmem2
        · intro t ht
          rw [hdrop, hdrop2, List.map_cons, List.map_cons, List.mem_cons, List.mem_cons]
          rcases List.mem_cons.mp ht with rfl | ht'
          · rcases hcase with hq | hq
            · left; exact hq
            · right; left; exact hq
          · have hmem2 := hih.2 t ht'
            rw [hrw] at hmem2
            right; right; exact hmem2

theorem stepNode_matmul {T : List String} {ws : List TensorProto} {os bd : Int}
    {nodes : List Node} {i : Nat} {node : Node} (hk : node.op_type = "MatMul") :
    stepNode T ws os bd nodes i node = matmulStep ws nodes i node (resolvedParams ws node) := by
  unfold stepNode
  rw [hk]
  simp

theorem stepNode_sub {T : List String} {ws : List TensorProto} {os bd : Int}
    {nodes : List Node} {i : Nat} {node : Node} (hk : node.op_type = "Sub") :
    stepNode T ws os bd nodes i node = mkPlain nodes node (subArm nodes i node) := by
  unfold stepNode
  rw [hk]
  simp

theorem stepNode_div {T : List String} {ws : List TensorProto} {os bd : Int}
    {nodes : List Node} {i : Nat} {node : Node} (hk : node.op_type = "Div") :
    stepNode T ws os bd nodes i node = mkPlain nodes node (divArm nodes i node) := by
  unfold stepNode
  rw [hk]
  simp

theorem stepNode_split {T : List String} {ws : List TensorProto} {os bd : Int}
    {nodes : List Node} {i : Nat} {node : Node} (hk : node.op_type = "Split") :
    stepNode T ws os bd nodes i node = mkPlain nodes node (pure (splitArm node, [])) := by
  unfold stepNode
  rw [hk]
  simp

theorem resolvedParams_input_ne_nil {ws : List TensorProto} {n : Node}
    {w : TensorProto} {wps : List TensorProto}
    (hp : resolvedParams ws n = w :: wps) : ∃ i0 irest, n.input = i0 :: irest := by
  cases hi : n.input with
  | nil => rw [resolvedParams, hi, List.filterMap_nil] at hp; cases hp
  | cons a t => exact ⟨a, t, rfl⟩

theorem matmulBase_ok {ws : List TensorProto} {node : Node} {w : TensorProto}
    {i0 : String} {irest : List String} (hin : node.input = i0 :: irest) :
    matmulBase ws node w =
      Except.ok (if (weightLookup ws i0).isSome
        then Op.linear (numCols w.data) (numRows w.data) w.data none
        else Op.linear (numRows w.data) (numCols w.data) (transposeMat w.data) none) := by
  simp only [matmulBase, hin, listGet, List.get?]
  by_cases hw : (weightLookup ws i0).isSome
  · rw [if_pos hw, if_pos hw]
  · rw [if_neg hw, if_neg hw]

theorem matmulStep_fused {ws : List TensorProto} {nodes : List Node} {i : Nat}
    {node : Node} {w : TensorProto} {wps : List TensorProto} {addN : Node}
    {b : TensorProto} {bps : List TensorProto} {base : Op}
    (hladd : listGet nodes (i + 1) = Except.ok addN)
    (hak : addN.op_type = "Add")
    (hbp : resolvedParams ws addN = b :: bps)
    (hbase : matmulBase ws node w = Except.ok base) :
    matmulStep ws nodes i node (w :: wps) =
      Except.ok ⟨Op.withBias base b.data,
        { node with output := node.output.dropLast ++ addN.output },
        (nodes.set i { node with output := node.output.dropLast ++ addN.output }).eraseIdx (i + 1),
        []⟩ := by
  simp only [matmulStep, hbase, hladd, hbp, hak, eq_self_iff_true, if_true]

theorem matmulStep_unfused {ws : List TensorProto} {nodes : List Node} {i : Nat}
    {node : Node} {w : TensorProto} {wps : List TensorProto} {nxt : Node} {base : Op}
    (hlnxt : listGet nodes (i + 1) = Except.ok nxt)
    (hnof : resolvedParams ws nxt = [] ∨ nxt.op_type ≠ "Add")
    (hbase : matmulBase ws node w = Except.ok base) :
    matmulStep ws nodes i node (w :: wps) = Except.ok ⟨base, node, nodes, []⟩ := by
  simp only [matmulStep, hbase, hlnxt]
  rcases hnof with hnp | hna
  · rw [hnp]
  · cases hq : resolvedParams ws nxt with
    | nil => rfl
    | cons bb bs => simp [hna]

theorem convertLoop_succ (T : List String) (ws : List TensorProto) (os bd : Int)
    (fuel : Nat) (nodes : List Node) (i : Nat) (h : i < nodes.length) :
    convertLoop T ws os bd (fuel + 1) nodes i =
      match stepNode T ws os bd nodes i (nodes.get ⟨i, h⟩) with
      | Except.error e => Except.error e
      | Except.ok out =>
        match listGet out.newNode.output 0 with
        | Except.error e => Except.error e
        | Except.ok oid =>
          match convertLoop T ws os bd fuel out.newNodes (i + 1) with
          | Except.error e => Except.error e
          | Except.ok rest =>
            Except.ok (⟨oid, out.newNode.op_type ++ "_" ++ oid, out.op⟩ :: rest.1,
              out.diags ++ rest.2) := by
  simp only [convertLoop]
  rw [dif_pos h]

theorem stepNode_auto {T : List String} {ws : List TensorProto} {os bd : Int}
    {nodes : List Node} {i : Nat} {node : Node}
    (h : node.op_type ∉ explicitKinds) :
    stepNode T ws os bd nodes i node = mkPlain nodes node (autoOp T node.op_type) := by
  unfold stepNode
  rw [if_neg (fun hx => h (by rw [hx]; decide))]
  rw [if_neg (fun hx => h (by rw [hx]; decide))]
  rw [if_neg (fun hx => h (by rw [hx]; decide))]
  rw [if_neg (fun hx => h (by rw [hx]; decide))]
  rw [if_neg (fun hx => h (by rw [hx]; decide))]
  rw [if_neg (fun hx => h (by rw [hx]; decide))]
  rw [if_neg (fun hx => h (by rw [hx]; decide))]
  rw [if_neg (fun hx => h (by rw [hx]; decide))]
  rw [if_neg (fun hx => h (by rw [hx]; decide))]
  rw [if_neg (fun hx => h (by rw [hx]; decide))]
  rw [if_neg (fun hx => h (by rw [hx]; decide))]
  rw [if_neg (fun hx => h (by rw [hx]; decide))]
  rw [if_neg (fun hx => h (by rw [hx]; decide))]
  rw [if_neg (fun hx => h (by rw [hx]; decide))]
  rw [if_neg (fun hx => h (by rw [hx]; decide))]
  rw [if_neg (fun hx => h (by rw [hx]; decide))]
  rw [if_neg (fun hx => h (by rw [hx]; decide))]
  rw [if_neg (fun hx => h (by rw [hx]; decide))]
  rw [if_neg (fun hx => h (by rw [hx]; decide))]
  rw [if_neg (fun hx => h (by rw [hx]; decide))]
  rw [if_neg (fun hx => h (by rw [hx]; decide))]
  rw [if_neg (fun hx => h (by rw [hx]; decide))]
  rw [if_neg (fun hx => h (by rw [hx]; decide))]
  rw [if_neg (fun hx => h (by rw [hx]; decide))]
  rw [if_neg (fun hx => h (by rw [hx]; decide))]
  rw [if_neg (fun hx => h (by rw [hx]; decide))]
  rw [if_neg (fun hx => h (by rw [hx]; decide))]
  rw [if_neg (fun hx => h (by rw [hx]; decide))]
  rw [if_neg (fun hx => h (by rw [hx]; decide))]
  rw [if_neg (fun hx => h (by rw [hx]; decide))]
  rw [if_neg (fun hx => h (by rw [hx]; decide))]
  rw [if_neg (fun hx => h (by rw [hx]; decide))]
  rw [if_neg (fun hx => h (by rw [hx]; decide))]
  rw [if_neg (fun hx => h (by rw [hx]; decide))]
  rw [if_neg (fun hx => h (by rw [hx]; decide))]
  rw [if_neg (fun hx => h (by rw [hx]; decide))]
  rw [if_neg (fun hx => h (by rw [hx]; decide))]
  rw [if_neg (fun hx => h (by rw [hx]; decide))]
  rw [if_neg (fun hx => h (by rw [hx]; decide))]
  rw [if_neg (fun hx => h (by rw [hx]; decide))]
  rw [if_neg (fun hx => h (by rw [hx]; decide))]
  rw [if_neg (fun hx => h (by rw [hx]; decide))]
  rw [if_neg (fun hx => h (by rw [hx]; decide))]
  rw [if_neg (fun hx => h (by rw [hx]; decide))]
  rw [if_neg (fun hx => h (by rw [hx]; decide))]
  rw [if_neg (fun hx => h (by rw [hx]; decide))]
  rw [if_neg (fun hx => h (by rw [hx]; decide))]
  rw [if_neg (fun hx => h (by rw [hx]; decide))]
  rw [if_neg (fun hx => h (by rw [hx]; decide))]
  rw [if_neg (fun hx => h (by rw [hx]; decide))]
  rw [if_neg (fun hx => h (by rw [hx]; decide))]
  rw [if_neg (fun hx => h (by rw [hx]; decide))]

/-! ## Claims -/

/-- C2: for every MatMul node with at least one input name resolved in the
Weight Index, when the node's first input name is in the Weight Index the
built affine unit has bias disabled, dimensions (in = constant's column
count, out = constant's row count) and binds the constant unmodified;
otherwise it has the swapped dimensions and binds the constant's transpose.
(The following node is assumed not to trigger the bias fusion, which would
only attach a bias on top of the same unit.) -/
theorem claim_C2 (T : List String) (ws : List TensorProto) (os bd : Int)
    (nodes : List Node) (i : Nat) (node : Node) (w : TensorProto)
    (wps : List TensorProto) (i0 : String) (irest : List String) (nxt : Node)
    (hk : node.op_type = "MatMul")
    (hp : resolvedParams ws node = w :: wps)
    (hin : node.input = i0 :: irest)
    (hnx : listGet nodes (i + 1) = Except.ok nxt)
    (hnof : resolvedParams ws nxt = [] ∨ nxt.op_type ≠ "Add") :
    stepNode T ws os bd nodes i node =
      Except.ok ⟨(if (weightLookup ws i0).isSome
          then Op.linear (numCols w.data) (numRows w.data) w.data none
          else Op.linear (numRows w.data) (numCols w.data) (transposeMat w.data) none),
        node, nodes, []⟩ := by
  rw [stepNode_matmul hk, hp]
  by_cases hw : (weightLookup ws i0).isSome
  · rw [if_pos hw]
    exact matmulStep_unfused hnx hnof (by rw [matmulBase_ok hin, if_pos hw])
  · rw [if_neg hw]
    exact matmulStep_unfused hnx hnof (by rw [matmulBase_ok hin, if_neg hw])

/-- Witness for C2: the constant "W" is the second input, so the unit binds
the transpose with swapped dimensions. -/
theorem claim_C2_witness :
    stepNode [] [⟨"W", [[1, 2, 3], [4, 5, 6]]⟩] 11 0
        [⟨"MatMul", ["x", "W"], ["mo"], []⟩, ⟨"Relu", ["mo"], ["ro"], []⟩] 0
        ⟨"MatMul", ["x", "W"], ["mo"], []⟩ =
      Except.ok ⟨Op.linear 2 3 [[1, 4], [2, 5], [3, 6]] none,
        ⟨"MatMul", ["x", "W"], ["mo"], []⟩,
        [⟨"MatMul", ["x", "W"], ["mo"], []⟩, ⟨"Relu", ["mo"], ["ro"], []⟩], []⟩ := by
  have h := claim_C2 [] [⟨"W", [[1, 2, 3], [4, 5, 6]]⟩] 11 0
    [⟨"MatMul", ["x", "W"], ["mo"], []⟩, ⟨"Relu", ["mo"], ["ro"], []⟩] 0
    ⟨"MatMul", ["x", "W"], ["mo"], []⟩ ⟨"W", [[1, 2, 3], [4, 5, 6]]⟩ [] "x" ["W"]
    ⟨"Relu", ["mo"], ["ro"], []⟩ rfl rfl rfl rfl (Or.inr (by decide))
  exact h.trans (by rfl)

/-- C3: a Sub or Div node at position i >= 1: when the node at i-1 is a
Constant node, the engine builds the specialized unit closing over that
node's decoded literal as right-hand operand; for any other preceding kind
it yields the generic two-input primitive. -/
theorem claim_C3 (T : List String) (ws : List TensorProto) (os bd : Int)
    (nodes : List Node) (i : Nat) (node prev : Node) (v : List (List Int))
    (hk : node.op_type = "Sub" ∨ node.op_type = "Div")
    (hi : i ≠ 0)
    (hprev : nodes.get? (i - 1) = some prev) :
    (prev.op_type = "Constant" →
      dictGet (extract_attributes prev) "constant" = Except.ok (Attr.tensor v) →
      stepNode T ws os bd nodes i node =
        Except.ok ⟨if node.op_type = "Sub" then Op.subConst v else Op.divConst v,
          node, nodes, []⟩)
    ∧ (prev.op_type ≠ "Constant" →
      stepNode T ws os bd nodes i node =
        Except.ok ⟨if node.op_type = "Sub" then Op.torchFn "sub" else Op.torchFn "true_divide",
          node, nodes, []⟩) := by
  have hpn : prevNode nodes i node = prev := by
    unfold prevNode
    have hprev2 : nodes[i - 1]? = some prev := by
      rw [← List.get?_eq_getElem?]; exact hprev
    rw [if_neg hi]
    simp [List.getD, hprev2]
  constructor
  · intro hc hv
    rcases hk with hk | hk
    · rw [stepNode_sub hk]
      simp [mkPlain, subArm, asTensor, hpn, hc, hv, Except.map, hk]
    · rw [stepNode_div hk]
      simp [mkPlain, divArm, asTensor, hpn, hc, hv, Except.map, hk]
  · intro hc
    rcases hk with hk | hk
    · rw [stepNode_sub hk]
      simp [mkPlain, subArm, hpn, hc, Except.map, hk]
    · rw [stepNode_div hk]
      simp [mkPlain, divArm, hpn, hc, Except.map, hk]

/-- Witness for C3: a Div node at position 1 preceded by a Constant node is
specialized against the constant's literal. -/
theorem claim_C3_witness :
    stepNode [] [] 11 0
        [⟨"Constant", [], ["c"], [("constant", Attr.tensor [[5]])]⟩,
         ⟨"Div", ["x", "c"], ["do"], []⟩] 1 ⟨"Div", ["x", "c"], ["do"], []⟩ =
      Except.ok ⟨Op.divConst [[5]], ⟨"Div", ["x", "c"], ["do"], []⟩,
        [⟨"Constant", [], ["c"], [("constant", Attr.tensor [[5]])]⟩,
         ⟨"Div", ["x", "c"], ["do"], []⟩], []⟩ := by
  have h := (claim_C3 [] [] 11 0
    [⟨"Constant", [], ["c"], [("constant", Attr.tensor [[5]])]⟩,
     ⟨"Div", ["x", "c"], ["do"], []⟩] 1 ⟨"Div", ["x", "c"], ["do"], []⟩
    ⟨"Constant", [], ["c"], [("constant", Attr.tensor [[5]])]⟩ [[5]]
    (Or.inr rfl) (by decide) rfl).1 rfl rfl
  exact h.trans (by rfl)

/-- C4: a node whose kind matches no explicit dispatch rule uses the
same-named lowercase torch built-in when one exists, emitting exactly one
informational diagnostic; otherwise the pass aborts with a fatal error
naming the offending operator kind. -/
theorem claim_C4 (T : List String) (ws : List TensorProto) (os bd : Int)
    (nodes : List Node) (i : Nat) (node : Node)
    (h : node.op_type ∉ explicitKinds) :
    (T.contains (strLower node.op_type) = true →
      stepNode T ws os bd nodes i node =
        Except.ok ⟨Op.torchFn (strLower node.op_type), node, nodes,
          ["Automatic inference of operator: " ++ strLower node.op_type]⟩)
    ∧ (T.contains (strLower node.op_type) = false →
      stepNode T ws os bd nodes i node = Except.error (Err.notImplemented node.op_type)) := by
  constructor
  · intro hc
    rw [stepNode_auto h]
    unfold mkPlain autoOp
    rw [if_pos hc]
    rfl
  · intro hc
    rw [stepNode_auto h]
    unfold mkPlain autoOp
    rw [if_neg (by rw [hc]; exact Bool.false_ne_true)]
    rfl

/-- Witness for C4: "Celu" has no explicit arm; with a runtime exposing
"celu" the built-in is used with one diagnostic. -/
theorem claim_C4_witness :
    stepNode ["celu"] [] 11 0 [⟨"Celu", ["x"], ["co"], []⟩] 0 ⟨"Celu", ["x"], ["co"], []⟩ =
      Except.ok ⟨Op.torchFn "celu", ⟨"Celu", ["x"], ["co"], []⟩,
        [⟨"Celu", ["x"], ["co"], []⟩], ["Automatic inference of operator: celu"]⟩ := by
  have h := (claim_C4 ["celu"] [] 11 0 [⟨"Celu", ["x"], ["co"], []⟩] 0
    ⟨"Celu", ["x"], ["co"], []⟩ (by decide)).1 (by decide)
  exact h.trans (by decide)

/-- C7: a MatMul node none of whose input names resolves in the Weight Index
yields the generic matrix-multiply primitive, with the node and the node
list unchanged. -/
theorem claim_C7 (T : List String) (ws : List TensorProto) (os bd : Int)
    (nodes : List Node) (i : Nat) (node : Node)
    (hk : node.op_type = "MatMul")
    (hp : resolvedParams ws node = []) :
    stepNode T ws os bd nodes i node = Except.ok ⟨Op.torchFn "matmul", node, nodes, []⟩ := by
  rw [stepNode_matmul hk, hp]
  rfl

/-- Witness for C7: a MatMul whose inputs name no initializer. -/
theorem claim_C7_witness :
    stepNode [] [⟨"W", [[1]]⟩] 11 0 [⟨"MatMul", ["x", "y"], ["mo"], []⟩] 0
        ⟨"MatMul", ["x", "y"], ["mo"], []⟩ =
      Except.ok ⟨Op.torchFn "matmul", ⟨"MatMul", ["x", "y"], ["mo"], []⟩,
        [⟨"MatMul", ["x", "y"], ["mo"], []⟩], []⟩ :=
  claim_C7 [] [⟨"W", [[1]]⟩] 11 0 [⟨"MatMul", ["x", "y"], ["mo"], []⟩] 0
    ⟨"MatMul", ["x", "y"], ["mo"], []⟩ rfl (by decide)

/-- C8: a Split node whose attribute mapping has no split-size attribute is
built with the number of equal segments set to the count of its declared
outputs. -/
theorem claim_C8 (T : List String) (ws : List TensorProto) (os bd : Int)
    (nodes : List Node) (i : Nat) (node : Node)
    (hk : node.op_type = "Split")
    (hna : dictContains (extract_attributes node) "split_size_or_sections" = false) :
    stepNode T ws os bd nodes i node =
      Except.ok ⟨Op.split (extract_attributes node ++
        [("number_of_splits", Attr.natVal node.output.length)]), node, nodes, []⟩ := by
  rw [stepNode_split hk]
  simp [mkPlain, splitArm, hna, Except.map, pure, Except.pure]

/-- Witness for C8: three declared outputs and no split-size attribute yield
a request for three equal segments. -/
theorem claim_C8_witness :
    stepNode [] [] 11 0 [⟨"Split", ["x"], ["s1", "s2", "s3"], []⟩] 0
        ⟨"Split", ["x"], ["s1", "s2", "s3"], []⟩ =
      Except.ok ⟨Op.split [("number_of_splits", Attr.natVal 3)],
        ⟨"Split", ["x"], ["s1", "s2", "s3"], []⟩,
        [⟨"Split", ["x"], ["s1", "s2", "s3"], []⟩], []⟩ := by
  have h := claim_C8 [] [] 11 0 [⟨"Split", ["x"], ["s1", "s2", "s3"], []⟩] 0
    ⟨"Split", ["x"], ["s1", "s2", "s3"], []⟩ rfl (by decide)
  exact h.trans (by rfl)

/-- C9: a Sub or Div node at position 0 reads the node at Python index -1,
i.e. the LAST node of the sequence; when that final node is a Constant node
the unit is specialized against its literal even though no node precedes the
Sub/Div node. -/
theorem claim_C9 (T : List String) (ws : List TensorProto) (os bd : Int)
    (nodes : List Node) (node lastN : Node) (v : List (List Int))
    (_hh : nodes.get? 0 = some node)
    (hk : node.op_type = "Sub" ∨ node.op_type = "Div")
    (hl : nodes.getLast? = some lastN)
    (hc : lastN.op_type = "Constant")
    (hv : dictGet (extract_attributes lastN) "constant" = Except.ok (Attr.tensor v)) :
    stepNode T ws os bd nodes 0 node =
      Except.ok ⟨if node.op_type = "Sub" then Op.subConst v else Op.divConst v,
        node, nodes, []⟩ := by
  have hpn : prevNode nodes 0 node = lastN := by
    unfold prevNode
    rw [if_pos rfl, List.getLastD_eq_getLast?, hl]
    rfl
  rcases hk with hk | hk
  · rw [stepNode_sub hk]
    simp [mkPlain, subArm, asTensor, hpn, hc, hv, Except.map, hk]
  · rw [stepNode_div hk]
    simp [mkPlain, divArm, asTensor, hpn, hc, hv, Except.map, hk]

/-- Witness for C9: a Sub node at position 0 whose sequence ends in a
Constant node is specialized against that final node's literal. -/
theorem claim_C9_witness :
    stepNode [] [] 11 0
        [⟨"Sub", ["x", "c"], ["so"], []⟩, ⟨"Relu", ["x"], ["ro"], []⟩,
         ⟨"Constant", [], ["c"], [("constant", Attr.tensor [[9]])]⟩] 0
        ⟨"Sub", ["x", "c"], ["so"], []⟩ =
      Except.ok ⟨Op.subConst [[9]], ⟨"Sub", ["x", "c"], ["so"], []⟩,
        [⟨"Sub", ["x", "c"], ["so"], []⟩, ⟨"Relu", ["x"], ["ro"], []⟩,
         ⟨"Constant", [], ["c"], [("constant", Attr.tensor [[9]])]⟩], []⟩ := by
  have h := claim_C9 [] [] 11 0
    [⟨"Sub", ["x", "c"], ["so"], []⟩, ⟨"Relu", ["x"], ["ro"], []⟩,
     ⟨"Constant", [], ["c"], [("constant", Attr.tensor [[9]])]⟩]
    ⟨"Sub", ["x", "c"], ["so"], []⟩
    ⟨"Constant", [], ["c"], [("constant", Attr.tensor [[9]])]⟩ [[9]]
    rfl (Or.inl rfl) (by decide) rfl rfl
  exact h.trans (by rfl)

/-- C10: when the LAST node of the sequence is a MatMul with a resolved
constant input, the unconditional lookahead reads one position past the end
of the sequence, so the pass fails with the out-of-range index error at that
node instead of yielding the unfused affine unit. -/
theorem claim_C10 (T : List String) (ws : List TensorProto) (os bd : Int)
    (fuel : Nat) (nodes : List Node) (mm : Node) (w : TensorProto) (wps : List TensorProto)
    (hlast : nodes.getLast? = some mm)
    (hk : mm.op_type = "MatMul")
    (hp : resolvedParams ws mm = w :: wps) :
    convertLoop T ws os bd (fuel + 1) nodes (nodes.length - 1) =
      Except.error Err.indexError := by
  have hne : nodes ≠ [] := by
    intro hc; rw [hc] at hlast; cases hlast
  have hpos : 0 < nodes.length := List.length_pos.mpr hne
  have hlen : nodes.length - 1 < nodes.length := Nat.sub_lt hpos (by decide)
  have hget : nodes.get? (nodes.length - 1) = some mm := by
    rw [List.get?_eq_getElem?, ← List.getLast?_eq_getElem?]
    exact hlast
  have hg : nodes.get ⟨nodes.length - 1, hlen⟩ = mm := (List.get?_eq_some.mp hget).2
  obtain ⟨i0, irest, hin⟩ := resolvedParams_input_ne_nil hp
  have hsum : nodes.length - 1 + 1 = nodes.length := Nat.succ_pred_eq_of_pos hpos
  have hno : listGet nodes (nodes.length - 1 + 1) = Except.error Err.indexError := by
    rw [hsum]
    unfold listGet
    rw [List.get?_eq_none.mpr (le_refl _)]
  rw [convertLoop_succ T ws os bd fuel nodes (nodes.length - 1) hlen, hg,
    stepNode_matmul hk, hp]
  simp only [matmulStep, matmulBase_ok hin, hno]

/-- Witness for C10: a two-node sequence ending in a MatMul with a resolved
constant input aborts with the index error. -/
theorem claim_C10_witness :
    convertLoop [] [⟨"W", [[1, 2], [3, 4]]⟩] 11 0 1
        [⟨"Relu", ["x"], ["ro"], []⟩, ⟨"MatMul", ["ro", "W"], ["mo"], []⟩] 1 =
      Except.error Err.indexError :=
  claim_C10 [] [⟨"W", [[1, 2], [3, 4]]⟩] 11 0 0
    [⟨"Relu", ["x"], ["ro"], []⟩, ⟨"MatMul", ["ro", "W"], ["mo"], []⟩]
    ⟨"MatMul", ["ro", "W"], ["mo"], []⟩ ⟨"W", [[1, 2], [3, 4]]⟩ []
    rfl rfl rfl

/-- C5: a supported single node translated in isolation (a one-node model,
so no fusion can apply) yields exactly one triple whose operator_id is the
node's first declared output name and whose operator_name is the operator
kind, an underscore, and that id. -/
theorem claim_C5 (T : List String) (m : ModelProto) (bd : Int) (n : Node)
    (v : Int) (vs : List Int) (o : String) (os2 : List String) (out : StepOut)
    (hop : m.opset_import = v :: vs)
    (hn : m.graph.node = [n])
    (ho : n.output = o :: os2)
    (hstep : stepNode T m.graph.inits v bd [n] 0 n = Except.ok out) :
    convert_operations T m bd =
      Except.ok ([⟨o, n.op_type ++ "_" ++ o, out.op⟩], out.diags) := by
  have hplain : out.newNode = n ∧ out.newNodes = [n] := by
    rcases stepNode_ok_shape hstep with h | ⟨nxt, hget, _, _⟩
    · exact h
    · cases hget
  simp only [convert_operations, hop, listGet, List.get?, hn, List.length_singleton]
  rw [convertLoop_succ T m.graph.inits v bd 0 [n] 0 (by rw [List.length_singleton]; exact Nat.zero_lt_one)]
  simp only [List.get, hstep, hplain.1, hplain.2, ho, listGet, List.get?]
  simp only [convertLoop, List.length_singleton, Nat.lt_irrefl, if_false]
  rw [List.append_nil]

/-- Witness for C5: a single Relu node in isolation. -/
theorem claim_C5_witness :
    convert_operations [] ⟨⟨[⟨"Relu", ["x"], ["ro"], []⟩], []⟩, [11]⟩ 0 =
      Except.ok ([⟨"ro", "Relu_ro", Op.relu⟩], []) := by
  have h := claim_C5 [] ⟨⟨[⟨"Relu", ["x"], ["ro"], []⟩], []⟩, [11]⟩ 0
    ⟨"Relu", ["x"], ["ro"], []⟩ 11 [] "ro" []
    ⟨Op.relu, ⟨"Relu", ["x"], ["ro"], []⟩, [⟨"Relu", ["x"], ["ro"], []⟩], []⟩
    rfl rfl rfl (by decide)
  exact h.trans (by decide)

/-- C1: a MatMul node with a resolved constant input and exactly one output
name, immediately followed by an Add node with a resolved constant input, is
fused: the pass emits exactly one triple at this position, for the affine
unit carrying the Add's constant as bias; the MatMul node's output name is
replaced by the Add's, the Add node is removed from the sequence (so it
contributes no triple, and the walk resumes after it), and the fused
triple's operator_id is the Add node's output name. -/
theorem claim_C1 (T : List String) (ws : List TensorProto) (os bd : Int)
    (fuel i : Nat) (nodes : List Node) (mm addN : Node)
    (w : TensorProto) (wps : List TensorProto) (b : TensorProto) (bps : List TensorProto)
    (mo ao : String) (aos : List String)
    (hmm : nodes.get? i = some mm)
    (hk : mm.op_type = "MatMul")
    (hp : resolvedParams ws mm = w :: wps)
    (hout : mm.output = [mo])
    (hadd : nodes.get? (i + 1) = some addN)
    (hak : addN.op_type = "Add")
    (hbp : resolvedParams ws addN = b :: bps)
    (haout : addN.output = ao :: aos) :
    ∃ a c wm,
      convertLoop T ws os bd (fuel + 1) nodes i =
        Except.map
          (fun r => (⟨ao, "MatMul_" ++ ao, Op.linear a c wm (some b.data)⟩ :: r.1, r.2))
          (convertLoop T ws os bd fuel
            ((nodes.set i { mm with output := addN.output }).eraseIdx (i + 1)) (i + 1)) := by
  obtain ⟨i0, irest, hin⟩ := resolvedParams_input_ne_nil hp
  obtain ⟨hlen, hg⟩ := List.get?_eq_some.mp hmm
  have hladd : listGet nodes (i + 1) = Except.ok addN := listGet_ok.mpr hadd
  have hbase := @matmulBase_ok ws mm w i0 irest hin
  have hnewout : mm.output.dropLast ++ addN.output = addN.output := by
    rw [hout, List.dropLast_single, List.nil_append]
  have hname : ("MatMul" ++ "_" : String) = "MatMul_" := rfl
  by_cases hw : (weightLookup ws i0).isSome
  · rw [if_pos hw] at hbase
    have hfused := @matmulStep_fused ws nodes i mm w wps addN b bps _ hladd hak hbp hbase
    refine ⟨numCols w.data, numRows w.data, w.data, ?_⟩
    rw [convertLoop_succ T ws os bd fuel nodes i hlen, hg, stepNode_matmul hk, hp, hfused]
    simp only [hnewout]
    simp only [haout, listGet, List.get?]
    cases hrec : convertLoop T ws os bd fuel
        ((nodes.set i { mm with output := ao :: aos }).eraseIdx (i + 1)) (i + 1) with
    | error e => simp only [hrec, Except.map]
    | ok rest => simp only [hrec, Except.map, Op.withBias, hk, hname, List.nil_append]
  · rw [if_neg hw] at hbase
    have hfused := @matmulStep_fused ws nodes i mm w wps addN b bps _ hladd hak hbp hbase
    refine ⟨numRows w.data, numCols w.data, transposeMat w.data, ?_⟩
    rw [convertLoop_succ T ws os bd fuel nodes i hlen, hg, stepNode_matmul hk, hp, hfused]
    simp only [hnewout]
    simp only [haout, listGet, List.get?]
    cases hrec : convertLoop T ws os bd fuel
        ((nodes.set i { mm with output := ao :: aos }).eraseIdx (i + 1)) (i + 1) with
    | error e => simp only [hrec, Except.map]
    | ok rest => simp only [hrec, Except.map, Op.withBias, hk, hname, List.nil_append]

/-- Witness for C1: the fused run emits the affine unit under the Add's
output identity, with the Add's constant as bias and the Add node removed. -/
theorem claim_C1_witness :
    ∃ a c wm,
      convertLoop [] [⟨"W", [[1, 2, 3], [4, 5, 6]]⟩, ⟨"b", [[7, 8]]⟩] 11 0 2
          [⟨"MatMul", ["x", "W"], ["mo"], []⟩, ⟨"Add", ["mo", "b"], ["ao"], []⟩] 0 =
        Except.map
          (fun r => (⟨"ao", "MatMul_" ++ "ao", Op.linear a c wm
            (some (TensorProto.mk "b" [[7, 8]]).data)⟩ :: r.1, r.2))
          (convertLoop [] [⟨"W", [[1, 2, 3], [4, 5, 6]]⟩, ⟨"b", [[7, 8]]⟩] 11 0 1
            (([⟨"MatMul", ["x", "W"], ["mo"], []⟩, ⟨"Add", ["mo", "b"], ["ao"], []⟩].set 0
              { Node.mk "MatMul" ["x", "W"] ["mo"] [] with
                output := (Node.mk "Add" ["mo", "b"] ["ao"] []).output }).eraseIdx 1) 1) :=
  claim_C1 [] [⟨"W", [[1, 2, 3], [4, 5, 6]]⟩, ⟨"b", [[7, 8]]⟩] 11 0 1 0
    [⟨"MatMul", ["x", "W"], ["mo"], []⟩, ⟨"Add", ["mo", "b"], ["ao"], []⟩]
    ⟨"MatMul", ["x", "W"], ["mo"], []⟩ ⟨"Add", ["mo", "b"], ["ao"], []⟩
    ⟨"W", [[1, 2, 3], [4, 5, 6]]⟩ [] ⟨"b", [[7, 8]]⟩ [] "mo" "ao" []
    rfl rfl rfl rfl rfl rfl rfl rfl

/-- C6: when every node's first output name is distinct across the input
sequence, a successful translation pass never emits two triples with the
same operator_id, including runs where the MatMul+Add fusion reassigns the
Add node's output name to the fused unit. -/
theorem claim_C6 (T : List String) (m : ModelProto) (bd : Int)
    (ts : List Triple) (ds : List String)
    (hok : convert_operations T m bd = Except.ok (ts, ds))
    (hnd : (m.graph.node.map firstOut).Nodup) :
    (ts.map Triple.op_id).Nodup := by
  unfold convert_operations at hok
  split at hok
  · exact Except.noConfusion hok
  · rename_i os hos
    exact (convertLoop_nodup T m.graph.inits os bd m.graph.node.length m.graph.node 0 ts ds
      hok (by simpa using hnd)).1

/-- Witness for C6 at a run that exercises the fusion's id reassignment. -/
theorem claim_C6_witness :
    (([⟨"ao", "MatMul_ao", Op.linear 2 3 [[1, 4], [2, 5], [3, 6]] (some [[7, 8]])⟩,
       ⟨"ro", "Relu_ro", Op.relu⟩] : List Triple).map Triple.op_id).Nodup :=
  claim_C6 []
    ⟨⟨[⟨"MatMul", ["x", "W"], ["mo"], []⟩, ⟨"Add", ["mo", "b"], ["ao"], []⟩,
       ⟨"Relu", ["ao"], ["ro"], []⟩],
      [⟨"W", [[1, 2, 3], [4, 5, 6]]⟩, ⟨"b", [[7, 8]]⟩]⟩, [11]⟩ 0
    [⟨"ao", "MatMul_ao", Op.linear 2 3 [[1, 4], [2, 5], [3, 6]] (some [[7, 8]])⟩,
     ⟨"ro", "Relu_ro", Op.relu⟩] []
    (by decide) (by decide)
